import Mathlib

/-!
Verification of the schema-driven CLI option parser in
`crates/core/src/config.rs` (the `cli_config!` macro): the generated
`Default for Config` impl, the `parse_impl` matching loop, and its two
entry points `parse_env` / `parse_from`.

The macro generates, per schema, a typed record and a parser over
`lexopt` tokens.  Here the schema is an explicit list of `OptionSpec`
values and the record an association list from option name to a tagged
value, as the spec's design notes describe for a language without
compile-time codegen.  The token classifier and value cursor live in the
external `lexopt` crate (not part of this repository's sources); those
parts are modelled from the spec and carry doc comments saying so.
-/

deriving instance DecidableEq for Except

namespace Peace

/-- The three value kinds of the macro's `@type` arms:
`str → String`, `int → i32`, `bool → bool`. -/
inductive Kind where
  | str
  | int
  | bool
deriving DecidableEq, Repr

/-- Tagged value stored in a configuration field, one variant per `Kind`
(spec §9: Text(string) / Integer(number) / Flag(boolean)). -/
inductive Value where
  | vstr (s : String)
  | vint (n : Int)
  | vbool (b : Bool)
deriving DecidableEq, Repr

/-- One option declaration of the schema: a
`static name = default as kind, short=…, long=…` line of `cli_config!`. -/
structure OptionSpec where
  name : String
  kind : Kind
  default : Value
  short : Option Char
  long : Option String
deriving DecidableEq, Repr

/-- The configuration record: one field per option, given as an
association list from option name to its current tagged value. -/
abbrev Config := List (String × Value)

/-- The `Default for Config` impl: every field is its schema literal default
(the macro's `@default_value` arms: `$value.to_string()` for `str`,
`$value` verbatim for `int` and `bool`). -/
def defaultConfig (schema : List OptionSpec) : Config :=
  schema.map (fun o => (o.name, o.default))

/-- Read a field of a configuration record by option name. -/
def getField (cfg : Config) (n : String) : Option Value :=
  (cfg.find? (fun p => p.1 == n)).map (fun p => p.2)

/-- Overwrite a field of a configuration record: the macro's
`$config.$name = …` assignment. -/
def setField (cfg : Config) (n : String) (v : Value) : Config :=
  cfg.map (fun p => if p.1 == n then (p.1, v) else p)

/-- Modelled from the spec (§3, §4.3): a classified token of the
argument stream — `ShortFlag(char)`, `LongFlag(string)` or a bare
`Value(string)`.  The classification itself is performed by the external
`lexopt` crate, which is not among this repository's sources. -/
inductive Token where
  | short (c : Char) : Token
  | long (s : String) : Token
  | value (s : String) : Token
deriving DecidableEq, Repr

/-- Modelled from the spec (§4.3 Token Classifier, absent from the
sources): a leading `-` followed by exactly one character is a short
flag; a leading `--` followed by a nonempty name is a long flag;
anything else is a bare value token.  Purely lexical. -/
def classify (tok : String) : Token :=
  match tok.data with
  | [] => Token.value tok
  | c1 :: rest =>
    if c1 = '-' then
      match rest with
      | [] => Token.value tok
      | c :: rest2 =>
        if c = '-' then
          match rest2 with
          | [] => Token.value tok
          | d :: ds => Token.long (String.mk (d :: ds))
        else
          match rest2 with
          | [] => Token.short c
          | _ :: _ => Token.value tok
    else Token.value tok

/-- Modelled from the spec (§7 error taxonomy): the structured parse
errors surfaced through `lexopt::Error` —  `arg.unexpected()` for a
token matching no dispatch arm, a missing value for a value-kind flag
at end of stream, and a failed integer conversion. -/
inductive Error where
  | unrecognizedArgument (tok : String)
  | missingValue (name : String)
  | invalidValue (name : String) (raw : String)
deriving DecidableEq, Repr

/-- All decimal digits, at least one: the digit part of `i32` parsing. -/
def digitsToNat (cs : List Char) : Option Nat :=
  if cs.isEmpty then none
  else
    cs.foldl
      (fun acc c =>
        match acc with
        | none => none
        | some n => if c.isDigit then some (10 * n + (c.toNat - 48)) else none)
      (some 0)

/-- Modelled from the spec (§4.1, and Rust's `i32` string conversion
used by the macro's `parse()?` call): an optional sign followed by
base-10 digits, rejected when empty, non-numeric or outside the signed
32-bit range. -/
def parseI32 (s : String) : Option Int :=
  match s.data with
  | '-' :: cs =>
    match digitsToNat cs with
    | none => none
    | some n => if n ≤ 2147483648 then some (-(n : Int)) else none
  | '+' :: cs =>
    match digitsToNat cs with
    | none => none
    | some n => if n ≤ 2147483647 then some (n : Int) else none
  | _ =>
    match digitsToNat s.data with
    | none => none
    | some n => if n ≤ 2147483647 then some (n : Int) else none

/-- The dispatch table of `parse_impl`: the generated `Short($short)` /
`Long($long)` match arms, in schema order (one short arm and one long
arm per declaring option).  A bare value token matches no arm. -/
def findSpec (schema : List OptionSpec) : Token → Option OptionSpec
  | Token.short c => schema.find? (fun o => o.short == some c)
  | Token.long s => schema.find? (fun o => o.long == some s)
  | Token.value _ => none

/-- The matching loop of `parse_impl`: one left-to-right pass over the
token stream, mutating the working record.  A recognized `bool` option
sets its field to `true`; a recognized `str` / `int` option consumes the
immediately following raw token as its value (`parser.value()?`, which
takes the next token verbatim even if it looks like a flag); any token
matching no dispatch arm aborts with `unrecognizedArgument`. -/
def parseTokens (schema : List OptionSpec) : List String → Config → Except Error Config
  | [], cfg => Except.ok cfg
  | tok :: rest, cfg =>
    match findSpec schema (classify tok) with
    | none => Except.error (Error.unrecognizedArgument tok)
    | some o =>
      match o.kind with
      | Kind.bool => parseTokens schema rest (setField cfg o.name (Value.vbool true))
      | Kind.str =>
        match rest with
        | [] => Except.error (Error.missingValue o.name)
        | v :: rest2 => parseTokens schema rest2 (setField cfg o.name (Value.vstr v))
      | Kind.int =>
        match rest with
        | [] => Except.error (Error.missingValue o.name)
        | v :: rest2 =>
          match parseI32 v with
          | none => Except.error (Error.invalidValue o.name v)
          | some n => parseTokens schema rest2 (setField cfg o.name (Value.vint n))

/-- Embedding of `Config::parse_impl`: start from the default record and run the
matching loop over the token stream (the stream already excludes the
program name, which the `lexopt` parser constructors discard). -/
def parse_impl (schema : List OptionSpec) (args : List String) : Except Error Config :=
  parseTokens schema args (defaultConfig schema)

/-- Embedding of `Config::parse_from`: parse an explicitly supplied sequence; its
first element is the program name and is discarded
(`lexopt::Parser::from_iter`). -/
def parse_from (schema : List OptionSpec) (args : List String) : Except Error Config :=
  parse_impl schema (args.drop 1)

/-- Embedding of `Config::parse_env`, modelled from the spec (§4.4): identical engine,
the token sequence merely originates from the process invocation
(`lexopt::Parser::from_env`), here passed explicitly. -/
def parse_env (schema : List OptionSpec) (envArgs : List String) : Except Error Config :=
  parse_impl schema (envArgs.drop 1)

/-- The schema of the crate's test module:
`config_path`, `max_retries`, `debug`, `verbose`. -/
def testSchema : List OptionSpec :=
  [⟨"config_path", Kind.str, Value.vstr "~/.config.json", some 'c', some "config"⟩,
   ⟨"max_retries", Kind.int, Value.vint 3, some 'r', some "retries"⟩,
   ⟨"debug", Kind.bool, Value.vbool false, some 'd', some "debug"⟩,
   ⟨"verbose", Kind.bool, Value.vbool false, none, some "verbose"⟩]

example :
    parse_from testSchema ["program", "-c", "/custom/path.json", "-r", "5", "-d"] =
      Except.ok
        [("config_path", Value.vstr "/custom/path.json"),
         ("max_retries", Value.vint 5),
         ("debug", Value.vbool true),
         ("verbose", Value.vbool false)] := by
  decide

example :
    parse_from testSchema ["program", "--config", "/etc/app.json", "--retries", "10", "--verbose"] =
      Except.ok
        [("config_path", Value.vstr "/etc/app.json"),
         ("max_retries", Value.vint 10),
         ("debug", Value.vbool false),
         ("verbose", Value.vbool true)] := by
  decide

example : parse_from testSchema ["program", "-x"] =
    Except.error (Error.unrecognizedArgument "-x") := by
  decide

/-! ## Helper lemmas -/

lemma setField_setField (cfg : Config) (n : String) (v1 v2 : Value) :
    setField (setField cfg n v1) n v2 = setField cfg n v2 := by
  simp only [setField, List.map_map]
  congr 1
  funext p
  by_cases h : p.1 == n <;> simp [Function.comp, h]

lemma getField_cons (p : String × Value) (tl : Config) (n : String) :
    getField (p :: tl) n = if p.1 == n then some p.2 else getField tl n := by
  by_cases h : p.1 == n <;> simp [getField, List.find?, h]

lemma setField_cons (p : String × Value) (tl : Config) (n : String) (v : Value) :
    setField (p :: tl) n v = (if p.1 == n then (p.1, v) else p) :: setField tl n v := by
  simp [setField]

lemma getField_setField_ne (cfg : Config) (m n : String) (v : Value) (h : m ≠ n) :
    getField (setField cfg m v) n = getField cfg n := by
  induction cfg with
  | nil => rfl
  | cons p tl ih =>
    rw [setField_cons, getField_cons, getField_cons]
    by_cases hp : p.1 = m
    · simp only [hp, beq_self_eq_true, if_true]
      have hmn : (m == n) = false := beq_eq_false_iff_ne.mpr h
      simp [hmn, ih]
    · have hpm : (p.1 == m) = false := beq_eq_false_iff_ne.mpr hp
      simp [hpm, ih]

lemma findSpec_mem {schema : List OptionSpec} {t : Token} {o : OptionSpec}
    (h : findSpec schema t = some o) : o ∈ schema := by
  cases t with
  | short c => exact List.mem_of_find?_eq_some h
  | long s => exact List.mem_of_find?_eq_some h
  | value s => simp [findSpec] at h

lemma defaultConfig_cons (a : OptionSpec) (tl : List OptionSpec) :
    defaultConfig (a :: tl) = (a.name, a.default) :: defaultConfig tl := rfl

lemma getField_defaultConfig (schema : List OptionSpec) (o : OptionSpec)
    (hnodup : (schema.map OptionSpec.name).Nodup) (ho : o ∈ schema) :
    getField (defaultConfig schema) o.name = some o.default := by
  induction schema with
  | nil => cases ho
  | cons a tl ih =>
    simp only [List.map_cons, List.nodup_cons] at hnodup
    rw [defaultConfig_cons, getField_cons]
    rcases List.mem_cons.mp ho with h | h
    · subst h
      simp
    · have hne : ¬a.name = o.name := by
        intro he
        exact hnodup.1 (he ▸ List.mem_map_of_mem OptionSpec.name h)
      have hb : (a.name == o.name) = false := beq_eq_false_iff_ne.mpr hne
      simp only [hb, if_false]
      exact ih hnodup.2 h

lemma classify_short_tok (c : Char) (hc : c ≠ '-') :
    classify (String.mk ['-', c]) = Token.short c := by
  simp [classify, hc]

lemma classify_ddash_cons (cs : List Char) (h : cs ≠ []) :
    classify (String.mk ('-' :: '-' :: cs)) = Token.long (String.mk cs) := by
  rcases cs with _ | ⟨d, ds⟩
  · exact absurd rfl h
  · rfl

lemma classify_cluster (c d : Char) (cs : List Char) (hc : c ≠ '-') :
    classify (String.mk ('-' :: c :: d :: cs))
      = Token.value (String.mk ('-' :: c :: d :: cs)) := by
  simp [classify, hc]

lemma classify_bare (t : String) (h : t.data.head? ≠ some '-') :
    classify t = Token.value t := by
  rcases ht : t.data with _ | ⟨c, cs⟩
  · simp [classify, ht]
  · have hc : c ≠ '-' := by
      intro he
      apply h
      rw [ht, he]
      rfl
    simp [classify, ht, hc]

lemma parseTokens_cons_none (schema : List OptionSpec) (tok : String) (rest : List String)
    (cfg : Config) (h : findSpec schema (classify tok) = none) :
    parseTokens schema (tok :: rest) cfg = Except.error (Error.unrecognizedArgument tok) := by
  simp [parseTokens, h]

lemma parseTokens_cons_bool (schema : List OptionSpec) (tok : String) (rest : List String)
    (cfg : Config) (o : OptionSpec)
    (h : findSpec schema (classify tok) = some o) (hk : o.kind = Kind.bool) :
    parseTokens schema (tok :: rest) cfg
      = parseTokens schema rest (setField cfg o.name (Value.vbool true)) := by
  simp [parseTokens, h, hk]

lemma parseTokens_cons_str (schema : List OptionSpec) (tok v : String) (rest : List String)
    (cfg : Config) (o : OptionSpec)
    (h : findSpec schema (classify tok) = some o) (hk : o.kind = Kind.str) :
    parseTokens schema (tok :: v :: rest) cfg
      = parseTokens schema rest (setField cfg o.name (Value.vstr v)) := by
  simp [parseTokens, h, hk]

lemma parseTokens_last_str (schema : List OptionSpec) (tok : String) (cfg : Config)
    (o : OptionSpec)
    (h : findSpec schema (classify tok) = some o) (hk : o.kind = Kind.str) :
    parseTokens schema [tok] cfg = Except.error (Error.missingValue o.name) := by
  simp [parseTokens, h, hk]

lemma parseTokens_cons_int (schema : List OptionSpec) (tok v : String) (rest : List String)
    (cfg : Config) (o : OptionSpec) (n : Int)
    (h : findSpec schema (classify tok) = some o) (hk : o.kind = Kind.int)
    (hv : parseI32 v = some n) :
    parseTokens schema (tok :: v :: rest) cfg
      = parseTokens schema rest (setField cfg o.name (Value.vint n)) := by
  simp [parseTokens, h, hk, hv]

lemma parseTokens_cons_int_bad (schema : List OptionSpec) (tok v : String)
    (rest : List String) (cfg : Config) (o : OptionSpec)
    (h : findSpec schema (classify tok) = some o) (hk : o.kind = Kind.int)
    (hv : parseI32 v = none) :
    parseTokens schema (tok :: v :: rest) cfg
      = Except.error (Error.invalidValue o.name v) := by
  simp [parseTokens, h, hk, hv]

lemma parseTokens_last_int (schema : List OptionSpec) (tok : String) (cfg : Config)
    (o : OptionSpec)
    (h : findSpec schema (classify tok) = some o) (hk : o.kind = Kind.int) :
    parseTokens schema [tok] cfg = Except.error (Error.missingValue o.name) := by
  simp [parseTokens, h, hk]

lemma parseTokens_append (schema : List OptionSpec) (ts : List String) :
    ∀ (pre : List String) (cfg : Config) (cfg1 : Config),
      parseTokens schema pre cfg = Except.ok cfg1 →
      parseTokens schema (pre ++ ts) cfg = parseTokens schema ts cfg1 := by
  intro pre cfg
  induction pre, cfg using parseTokens.induct schema with
  | case1 cfg =>
    intro cfg1 hp
    simp [parseTokens] at hp
    subst hp
    rfl
  | case2 tok rest cfg hnone =>
    intro cfg1 hp
    rw [parseTokens_cons_none schema tok rest cfg hnone] at hp
    simp at hp
  | case3 tok rest cfg o hfind hk ih =>
    intro cfg1 hp
    rw [parseTokens_cons_bool schema tok rest cfg o hfind hk] at hp
    rw [List.cons_append, parseTokens_cons_bool schema tok (rest ++ ts) cfg o hfind hk]
    exact ih cfg1 hp
  | case4 tok cfg o hfind hk =>
    intro cfg1 hp
    rw [parseTokens_last_str schema tok cfg o hfind hk] at hp
    simp at hp
  | case5 tok cfg o hfind hk v rest2 ih =>
    intro cfg1 hp
    rw [parseTokens_cons_str schema tok v rest2 cfg o hfind hk] at hp
    rw [List.cons_append, List.cons_append,
      parseTokens_cons_str schema tok v (rest2 ++ ts) cfg o hfind hk]
    exact ih cfg1 hp
  | case6 tok cfg o hfind hk =>
    intro cfg1 hp
    rw [parseTokens_last_int schema tok cfg o hfind hk] at hp
    simp at hp
  | case7 tok cfg o hfind hk v rest2 hv =>
    intro cfg1 hp
    rw [parseTokens_cons_int_bad schema tok v rest2 cfg o hfind hk hv] at hp
    simp at hp
  | case8 tok cfg o hfind hk v rest2 n hv ih =>
    intro cfg1 hp
    rw [parseTokens_cons_int schema tok v rest2 cfg o n hfind hk hv] at hp
    rw [List.cons_append, List.cons_append,
      parseTokens_cons_int schema tok v (rest2 ++ ts) cfg o n hfind hk hv]
    exact ih cfg1 hp

lemma parseTokens_frame (schema : List OptionSpec) (n : String) :
    ∀ (ts : List String) (cfg : Config) (cfg2 : Config),
      parseTokens schema ts cfg = Except.ok cfg2 →
      (∀ o ∈ schema, o.name = n → ∀ tok ∈ ts, findSpec schema (classify tok) ≠ some o) →
      getField cfg2 n = getField cfg n := by
  intro ts cfg
  induction ts, cfg using parseTokens.induct schema with
  | case1 cfg =>
    intro cfg2 h _
    simp [parseTokens] at h
    subst h
    rfl
  | case2 tok rest cfg hnone =>
    intro cfg2 h _
    rw [parseTokens_cons_none schema tok rest cfg hnone] at h
    simp at h
  | case3 tok rest cfg o hfind hk ih =>
    intro cfg2 h hn
    rw [parseTokens_cons_bool schema tok rest cfg o hfind hk] at h
    have hname : o.name ≠ n := fun he =>
      hn o (findSpec_mem hfind) he tok (List.mem_cons_self tok rest) hfind
    have hn2 : ∀ o2 ∈ schema, o2.name = n →
        ∀ t2 ∈ rest, findSpec schema (classify t2) ≠ some o2 :=
      fun o2 ho2 he t2 ht2 => hn o2 ho2 he t2 (List.mem_cons_of_mem tok ht2)
    rw [ih cfg2 h hn2]
    exact getField_setField_ne cfg o.name n (Value.vbool true) hname
  | case4 tok cfg o hfind hk =>
    intro cfg2 h _
    rw [parseTokens_last_str schema tok cfg o hfind hk] at h
    simp at h
  | case5 tok cfg o hfind hk v rest2 ih =>
    intro cfg2 h hn
    rw [parseTokens_cons_str schema tok v rest2 cfg o hfind hk] at h
    have hname : o.name ≠ n := fun he =>
      hn o (findSpec_mem hfind) he tok (List.mem_cons_self tok (v :: rest2)) hfind
    have hn2 : ∀ o2 ∈ schema, o2.name = n →
        ∀ t2 ∈ rest2, findSpec schema (classify t2) ≠ some o2 :=
      fun o2 ho2 he t2 ht2 =>
        hn o2 ho2 he t2 (List.mem_cons_of_mem tok (List.mem_cons_of_mem v ht2))
    rw [ih cfg2 h hn2]
    exact getField_setField_ne cfg o.name n (Value.vstr v) hname
  | case6 tok cfg o hfind hk =>
    intro cfg2 h _
    rw [parseTokens_last_int schema tok cfg o hfind hk] at h
    simp at h
  | case7 tok cfg o hfind hk v rest2 hv =>
    intro cfg2 h _
    rw [parseTokens_cons_int_bad schema tok v rest2 cfg o hfind hk hv] at h
    simp at h
  | case8 tok cfg o hfind hk v rest2 n2 hv ih =>
    intro cfg2 h hn
    rw [parseTokens_cons_int schema tok v rest2 cfg o n2 hfind hk hv] at h
    have hname : o.name ≠ n := fun he =>
      hn o (findSpec_mem hfind) he tok (List.mem_cons_self tok (v :: rest2)) hfind
    have hn2 : ∀ o2 ∈ schema, o2.name = n →
        ∀ t2 ∈ rest2, findSpec schema (classify t2) ≠ some o2 :=
      fun o2 ho2 he t2 ht2 =>
        hn o2 ho2 he t2 (List.mem_cons_of_mem tok (List.mem_cons_of_mem v ht2))
    rw [ih cfg2 h hn2]
    exact getField_setField_ne cfg o.name n (Value.vint n2) hname

/-! ## Claims -/

/-- Claim C1: for every schema, the generated `Config::default` returns a
record in which every field equals the literal default declared for that
option in the schema, with no flags applied and no failure mode; the
record has exactly the schema's fields, in schema order. -/
theorem default_record_is_schema_defaults (schema : List OptionSpec) (o : OptionSpec)
    (hnodup : (schema.map OptionSpec.name).Nodup) (ho : o ∈ schema) :
    getField (defaultConfig schema) o.name = some o.default ∧
      (defaultConfig schema).map Prod.fst = schema.map OptionSpec.name := by
  exact ⟨getField_defaultConfig schema o hnodup ho, by simp [defaultConfig]⟩

/-- Witness for C1 on the crate's test schema: the `max_retries` field
of the default record is the literal `3` of the schema. -/
theorem default_record_is_schema_defaults_witness :
    getField (defaultConfig testSchema) "max_retries" = some (Value.vint 3) ∧
      (defaultConfig testSchema).map Prod.fst = testSchema.map OptionSpec.name :=
  default_record_is_schema_defaults testSchema
    ⟨"max_retries", Kind.int, Value.vint 3, some 'r', some "retries"⟩
    (by decide) (by decide)

/-- Claim C2: when the same flag is supplied more than once, the last
occurrence wins — each match unconditionally overwrites the field, so a
duplicated value-kind flag parses exactly like a single occurrence with
the final value, and a duplicated Flag-kind flag parses exactly like a
single occurrence; nothing accumulates. -/
theorem last_occurrence_wins (schema : List OptionSpec) (tok v1 v2 : String)
    (rest : List String) (cfg : Config) (o : OptionSpec)
    (h : findSpec schema (classify tok) = some o) :
    (o.kind = Kind.str →
      parseTokens schema (tok :: v1 :: tok :: v2 :: rest) cfg
        = parseTokens schema (tok :: v2 :: rest) cfg) ∧
    (∀ n1 : Int, o.kind = Kind.int → parseI32 v1 = some n1 →
      parseTokens schema (tok :: v1 :: tok :: v2 :: rest) cfg
        = parseTokens schema (tok :: v2 :: rest) cfg) ∧
    (o.kind = Kind.bool →
      parseTokens schema (tok :: tok :: rest) cfg
        = parseTokens schema (tok :: rest) cfg) := by
  refine ⟨fun hk => ?_, fun n1 hk hv1 => ?_, fun hk => ?_⟩
  · rw [parseTokens_cons_str schema tok v1 (tok :: v2 :: rest) cfg o h hk,
      parseTokens_cons_str schema tok v2 rest (setField cfg o.name (Value.vstr v1)) o h hk,
      parseTokens_cons_str schema tok v2 rest cfg o h hk, setField_setField]
  · rw [parseTokens_cons_int schema tok v1 (tok :: v2 :: rest) cfg o n1 h hk hv1]
    cases hv2 : parseI32 v2 with
    | none =>
      rw [parseTokens_cons_int_bad schema tok v2 rest
            (setField cfg o.name (Value.vint n1)) o h hk hv2,
        parseTokens_cons_int_bad schema tok v2 rest cfg o h hk hv2]
    | some n2 =>
      rw [parseTokens_cons_int schema tok v2 rest
            (setField cfg o.name (Value.vint n1)) o n2 h hk hv2,
        parseTokens_cons_int schema tok v2 rest cfg o n2 h hk hv2, setField_setField]
  · rw [parseTokens_cons_bool schema tok (tok :: rest) cfg o h hk,
      parseTokens_cons_bool schema tok rest (setField cfg o.name (Value.vbool true)) o h hk,
      parseTokens_cons_bool schema tok rest cfg o h hk, setField_setField]

/-- Witness for C2: `-r 5 -r 9` parses exactly like `-r 9`. -/
theorem last_occurrence_wins_witness :
    parseTokens testSchema ["-r", "5", "-r", "9"] (defaultConfig testSchema)
      = parseTokens testSchema ["-r", "9"] (defaultConfig testSchema) :=
  ((last_occurrence_wins testSchema "-r" "5" "9" [] (defaultConfig testSchema)
      ⟨"max_retries", Kind.int, Value.vint 3, some 'r', some "retries"⟩
      (by decide)).2.1) 5 (by decide) (by decide)

/-- Claim C3: the first token matching no dispatch arm — an unknown flag
or a bare value (which matches no arm by construction) — aborts the
parse immediately with `unrecognizedArgument` naming that token,
whatever tokens follow; no record is returned. -/
theorem unrecognized_argument_aborts (schema : List OptionSpec) (tok : String)
    (rest : List String) (cfg : Config)
    (h : findSpec schema (classify tok) = none) :
    parseTokens schema (tok :: rest) cfg
      = Except.error (Error.unrecognizedArgument tok) ∧
    ∀ s : String, findSpec schema (Token.value s) = none :=
  ⟨parseTokens_cons_none schema tok rest cfg h, fun _ => rfl⟩

/-- Witness for C3: `-x` aborts at once even with a valid `-d` after it. -/
theorem unrecognized_argument_aborts_witness :
    parseTokens testSchema ["-x", "-d"] (defaultConfig testSchema)
      = Except.error (Error.unrecognizedArgument "-x") ∧
    ∀ s : String, findSpec testSchema (Token.value s) = none :=
  unrecognized_argument_aborts testSchema "-x" ["-d"] (defaultConfig testSchema) (by decide)

/-- Claim C4: a recognized value-kind (`str` or `int`) flag standing as
the last token, with no following token to supply its value, makes the
parse fail with `missingValue` naming that option — from any working
record the engine may have reached. -/
theorem missing_value_at_end (schema : List OptionSpec) (tok : String) (cfg : Config)
    (o : OptionSpec) (h : findSpec schema (classify tok) = some o)
    (hk : o.kind = Kind.str ∨ o.kind = Kind.int) :
    parseTokens schema [tok] cfg = Except.error (Error.missingValue o.name) := by
  rcases hk with hk | hk
  · exact parseTokens_last_str schema tok cfg o h hk
  · exact parseTokens_last_int schema tok cfg o h hk

/-- Witness for C4: a trailing `-r` yields `missingValue "max_retries"`. -/
theorem missing_value_at_end_witness :
    parseTokens testSchema ["-r"] (defaultConfig testSchema)
      = Except.error (Error.missingValue "max_retries") :=
  missing_value_at_end testSchema "-r" (defaultConfig testSchema)
    ⟨"max_retries", Kind.int, Value.vint 3, some 'r', some "retries"⟩
    (by decide) (by decide)

/-- Claim C5: a recognized Integer-kind flag followed by a token that
does not parse as a base-10 signed 32-bit integer fails with
`invalidValue` carrying the option name and the raw token — no crash,
no silent fallback to the default. -/
theorem invalid_int_value (schema : List OptionSpec) (tok raw : String)
    (rest : List String) (cfg : Config) (o : OptionSpec)
    (h : findSpec schema (classify tok) = some o) (hk : o.kind = Kind.int)
    (hraw : parseI32 raw = none) :
    parseTokens schema (tok :: raw :: rest) cfg
      = Except.error (Error.invalidValue o.name raw) :=
  parseTokens_cons_int_bad schema tok raw rest cfg o h hk hraw

/-- Witness for C5 at a non-numeric token and at an out-of-range one. -/
theorem invalid_int_value_witness :
    parseTokens testSchema ["-r", "abc"] (defaultConfig testSchema)
      = Except.error (Error.invalidValue "max_retries" "abc") ∧
    parseTokens testSchema ["-r", "2147483648"] (defaultConfig testSchema)
      = Except.error (Error.invalidValue "max_retries" "2147483648") :=
  ⟨invalid_int_value testSchema "-r" "abc" [] (defaultConfig testSchema)
      ⟨"max_retries", Kind.int, Value.vint 3, some 'r', some "retries"⟩
      (by decide) (by decide) (by decide),
   invalid_int_value testSchema "-r" "2147483648" [] (defaultConfig testSchema)
      ⟨"max_retries", Kind.int, Value.vint 3, some 'r', some "retries"⟩
      (by decide) (by decide) (by decide)⟩

/-- Claim C6: for an option carrying both a short and a long spelling,
swapping one spelling for the other at any point the engine reaches in
flag position — after any successfully parsed prefix, with the same
following tokens — yields an identical parse result. -/
theorem short_long_equivalent (schema : List OptionSpec) (c : Char) (l : String)
    (o : OptionSpec) (pre rest : List String) (cfg cfg1 : Config)
    (hc : c ≠ '-') (hl : l.data ≠ [])
    (hs : findSpec schema (Token.short c) = some o)
    (hlg : findSpec schema (Token.long l) = some o)
    (hpre : parseTokens schema pre cfg = Except.ok cfg1) :
    parseTokens schema (pre ++ String.mk ['-', c] :: rest) cfg
      = parseTokens schema (pre ++ String.mk ('-' :: '-' :: l.data) :: rest) cfg := by
  rw [parseTokens_append schema (String.mk ['-', c] :: rest) pre cfg cfg1 hpre,
    parseTokens_append schema (String.mk ('-' :: '-' :: l.data) :: rest) pre cfg cfg1 hpre]
  have h1 : findSpec schema (classify (String.mk ['-', c])) = some o := by
    rw [classify_short_tok c hc]
    exact hs
  have h2 : findSpec schema (classify (String.mk ('-' :: '-' :: l.data))) = some o := by
    rw [classify_ddash_cons l.data hl]
    have he : String.mk l.data = l := by cases l; rfl
    rw [he]
    exact hlg
  cases hk : o.kind with
  | bool =>
    rw [parseTokens_cons_bool schema _ rest cfg1 o h1 hk,
      parseTokens_cons_bool schema _ rest cfg1 o h2 hk]
  | str =>
    cases rest with
    | nil =>
      rw [parseTokens_last_str schema _ cfg1 o h1 hk,
        parseTokens_last_str schema _ cfg1 o h2 hk]
    | cons v rest2 =>
      rw [parseTokens_cons_str schema _ v rest2 cfg1 o h1 hk,
        parseTokens_cons_str schema _ v rest2 cfg1 o h2 hk]
  | int =>
    cases rest with
    | nil =>
      rw [parseTokens_last_int schema _ cfg1 o h1 hk,
        parseTokens_last_int schema _ cfg1 o h2 hk]
    | cons v rest2 =>
      cases hv : parseI32 v with
      | none =>
        rw [parseTokens_cons_int_bad schema _ v rest2 cfg1 o h1 hk hv,
          parseTokens_cons_int_bad schema _ v rest2 cfg1 o h2 hk hv]
      | some m =>
        rw [parseTokens_cons_int schema _ v rest2 cfg1 o m h1 hk hv,
          parseTokens_cons_int schema _ v rest2 cfg1 o m h2 hk hv]

/-- Witness for C6: `-r 7` and `--retries 7` parse identically after the
prefix `-d`. -/
theorem short_long_equivalent_witness :
    parseTokens testSchema (["-d"] ++ String.mk ['-', 'r'] :: ["7"])
        (defaultConfig testSchema)
      = parseTokens testSchema
          (["-d"] ++ String.mk ('-' :: '-' :: "retries".data) :: ["7"])
          (defaultConfig testSchema) :=
  short_long_equivalent testSchema 'r' "retries"
    ⟨"max_retries", Kind.int, Value.vint 3, some 'r', some "retries"⟩
    ["-d"] ["7"] (defaultConfig testSchema)
    [("config_path", Value.vstr "~/.config.json"), ("max_retries", Value.vint 3),
     ("debug", Value.vbool true), ("verbose", Value.vbool false)]
    (by decide) (by decide) (by decide) (by decide) (by decide)

/-- Claim C7: a successful parse leaves every field whose option is
dispatched to by no input token at its schema default; in particular the
empty input after the program name returns exactly the default record. -/
theorem untouched_fields_stay_default (schema : List OptionSpec) (ts : List String)
    (cfg2 : Config) (n : String)
    (h : parseTokens schema ts (defaultConfig schema) = Except.ok cfg2)
    (hn : ∀ o ∈ schema, o.name = n → ∀ tok ∈ ts, findSpec schema (classify tok) ≠ some o) :
    getField cfg2 n = getField (defaultConfig schema) n ∧
    ∀ prog : String, parse_from schema [prog] = Except.ok (defaultConfig schema) :=
  ⟨parseTokens_frame schema n ts (defaultConfig schema) cfg2 h hn, fun _ => rfl⟩

/-- Witness for C7: parsing `-d` leaves `max_retries` at its default. -/
theorem untouched_fields_stay_default_witness :
    getField [("config_path", Value.vstr "~/.config.json"), ("max_retries", Value.vint 3),
        ("debug", Value.vbool true), ("verbose", Value.vbool false)] "max_retries"
      = getField (defaultConfig testSchema) "max_retries" ∧
    ∀ prog : String, parse_from testSchema [prog] = Except.ok (defaultConfig testSchema) :=
  untouched_fields_stay_default testSchema ["-d"]
    [("config_path", Value.vstr "~/.config.json"), ("max_retries", Value.vint 3),
     ("debug", Value.vbool true), ("verbose", Value.vbool false)]
    "max_retries" (by decide) (by decide)

lemma findSpec_long_eq_none (schema : List OptionSpec) (nm vl : List Char)
    (hnoeq : schema.all
      (fun o =>
        match o.long with
        | none => true
        | some s => s.data.all (fun ch => !(ch == '='))) = true) :
    findSpec schema (Token.long (String.mk (nm ++ '=' :: vl))) = none := by
  simp only [findSpec]
  refine List.find?_eq_none.mpr ?_
  intro o ho hb
  have heq : o.long = some (String.mk (nm ++ '=' :: vl)) := eq_of_beq hb
  have hall := List.all_eq_true.mp hnoeq o ho
  rw [heq] at hall
  have hmem : ('=' : Char) ∈ nm ++ '=' :: vl :=
    List.mem_append_right nm (List.mem_cons_self '=' vl)
  have hch := List.all_eq_true.mp hall '=' hmem
  simp at hch

/-- Claim C8: the core accepts no `=`-joined long-flag values, no
combined short-flag clusters and no positional arguments: a token
`--name=value` (for any schema whose long spellings contain no `=`), a
clustered short token such as `-dc`, and a bare token not starting with
`-` each abort the parse with `unrecognizedArgument` — none is a way to
supply an option or a value. -/
theorem no_alternate_flag_shapes (schema : List OptionSpec) (rest : List String) (cfg : Config)
    (hnoeq : schema.all
      (fun o =>
        match o.long with
        | none => true
        | some s => s.data.all (fun ch => !(ch == '='))) = true) :
    (∀ nm vl : List Char,
      parseTokens schema (String.mk ('-' :: '-' :: (nm ++ '=' :: vl)) :: rest) cfg
        = Except.error
            (Error.unrecognizedArgument (String.mk ('-' :: '-' :: (nm ++ '=' :: vl))))) ∧
    (∀ (c d : Char) (cs : List Char), c ≠ '-' →
      parseTokens schema (String.mk ('-' :: c :: d :: cs) :: rest) cfg
        = Except.error (Error.unrecognizedArgument (String.mk ('-' :: c :: d :: cs)))) ∧
    (∀ t : String, t.data.head? ≠ some '-' →
      parseTokens schema (t :: rest) cfg = Except.error (Error.unrecognizedArgument t)) := by
  refine ⟨fun nm vl => ?_, fun c d cs hc => ?_, fun t ht => ?_⟩
  · apply parseTokens_cons_none
    rw [classify_ddash_cons (nm ++ '=' :: vl) (by simp)]
    exact findSpec_long_eq_none schema nm vl hnoeq
  · apply parseTokens_cons_none
    rw [classify_cluster c d cs hc]
    rfl
  · apply parseTokens_cons_none
    rw [classify_bare t ht]
    rfl

/-- Witness for C8: `--config=/x`, `-dc` and a bare `path` are all
rejected with `unrecognizedArgument` on the test schema. -/
theorem no_alternate_flag_shapes_witness :
    parseTokens testSchema
        [String.mk ('-' :: '-' :: ("config".data ++ '=' :: "/x".data))]
        (defaultConfig testSchema)
      = Except.error
          (Error.unrecognizedArgument
            (String.mk ('-' :: '-' :: ("config".data ++ '=' :: "/x".data)))) ∧
    parseTokens testSchema [String.mk ['-', 'd', 'c']] (defaultConfig testSchema)
      = Except.error (Error.unrecognizedArgument (String.mk ['-', 'd', 'c'])) ∧
    parseTokens testSchema ["path"] (defaultConfig testSchema)
      = Except.error (Error.unrecognizedArgument "path") :=
  ⟨(no_alternate_flag_shapes testSchema [] (defaultConfig testSchema) (by decide)).1
      "config".data "/x".data,
   (no_alternate_flag_shapes testSchema [] (defaultConfig testSchema) (by decide)).2.1
      'd' 'c' [] (by decide),
   (no_alternate_flag_shapes testSchema [] (defaultConfig testSchema) (by decide)).2.2
      "path" (by decide)⟩

/-- Claim C9: parsing is deterministic — `parse_from` on the identical
input yields identical results — and `parse_env` behaves identically to
`parse_from` on the same token sequence, both delegating to
`parse_impl`; the only difference is where the sequence originates. -/
theorem parse_entry_points_agree (schema : List OptionSpec) (args : List String) :
    parse_from schema args = parse_from schema args ∧
    parse_env schema args = parse_from schema args ∧
    parse_from schema args = parse_impl schema (args.drop 1) :=
  ⟨rfl, rfl, rfl⟩

/-- Claim C10: after a recognized value-kind flag the immediately
following token is consumed verbatim as the option's raw value, even
when it begins with a dash; in particular `["program", "-r", "-5"]`
succeeds on the test schema with `max_retries = -5`. -/
theorem dash_leading_value_consumed (schema : List OptionSpec) (tok v : String)
    (rest : List String) (cfg : Config) (o : OptionSpec)
    (h : findSpec schema (classify tok) = some o) :
    (o.kind = Kind.str →
      parseTokens schema (tok :: v :: rest) cfg
        = parseTokens schema rest (setField cfg o.name (Value.vstr v))) ∧
    (∀ n : Int, o.kind = Kind.int → parseI32 v = some n →
      parseTokens schema (tok :: v :: rest) cfg
        = parseTokens schema rest (setField cfg o.name (Value.vint n))) ∧
    parse_from testSchema ["program", "-r", "-5"]
      = Except.ok
          [("config_path", Value.vstr "~/.config.json"),
           ("max_retries", Value.vint (-5)),
           ("debug", Value.vbool false),
           ("verbose", Value.vbool false)] :=
  ⟨fun hk => parseTokens_cons_str schema tok v rest cfg o h hk,
   fun n hk hv => parseTokens_cons_int schema tok v rest cfg o n h hk hv,
   by decide⟩

/-- Witness for C10: the engine consumes `"-5"` as the value of `-r`. -/
theorem dash_leading_value_consumed_witness :
    parseTokens testSchema ["-r", "-5"] (defaultConfig testSchema)
      = parseTokens testSchema []
          (setField (defaultConfig testSchema) "max_retries" (Value.vint (-5))) :=
  (dash_leading_value_consumed testSchema "-r" "-5" [] (defaultConfig testSchema)
      ⟨"max_retries", Kind.int, Value.vint 3, some 'r', some "retries"⟩
      (by decide)).2.1 (-5) (by decide) (by decide)

end Peace
